import Mathlib

/-!
Shallow embedding of the identity-reconciliation service
(src/services/identityLinkingService.ts, src/services/contactSearchService.ts,
src/models/contactRepository.ts, src/utils/validation.ts) and proofs about it.

Modelling conventions:
* Machine integers and `Date` timestamps are `Nat` (comparisons through
  `getTime()` become `Nat` comparisons).
* The relational store is a `Store`: the contact table as a `List Contact` in
  insertion (id) order, the autoincrement counter, a clock `now` used for the
  `new Date()` / `default now()` timestamps of writes issued by one
  `Resolve` call, and a log of the individual write statements issued so far.
  The service opens no transaction, so every write statement commits on its
  own; `writeLog` records that commit sequence and `applyWrite` replays it.
* Prisma `findMany` with `orderBy createdAt asc` returns rows sorted by
  `createdAt`; ties are returned in table (insertion) order, which we model
  with a stable insertion sort.  `findFirst` returns the first row of the
  table matching the filter.  A Prisma filter `field: null` matches rows
  whose column IS NULL.
* JavaScript truthiness on optional strings (`if (email)`) is `truthy`:
  `null`/`undefined` and `""` are falsy.  JavaScript `Array.prototype.sort`
  is stable, so `.sort(byCreatedAt)[0]` is the first element with minimal
  `createdAt`; `oldestFirst` is head-of-stable-sort.
* Thrown errors become `Except IdErr`; the JS `TypeError` crash that accessing
  a field of `undefined` (from `sort(...)[0]` on an empty array) would raise
  is `IdErr.undefinedPrimary`.
-/

inductive LinkPrecedence where
  | primary
  | secondary
deriving DecidableEq, Repr

def LinkPrecedence.isPrimary : LinkPrecedence → Bool
  | .primary => true
  | .secondary => false

def LinkPrecedence.isSecondary : LinkPrecedence → Bool
  | .primary => false
  | .secondary => true

/-- A row of the `contacts` table (prisma/schema.prisma, model Contact). -/
structure Contact where
  id : Nat
  email : Option String
  phoneNumber : Option String
  linkedId : Option Nat
  linkPrecedence : LinkPrecedence
  createdAt : Nat
  updatedAt : Nat
  deletedAt : Option Nat
deriving DecidableEq, Repr

/-- One write statement issued to the store (each commits individually,
since the service opens no transaction). -/
inductive WriteOp where
  | createRow (email phoneNumber : Option String)
      (linkedId : Option Nat) (linkPrecedence : LinkPrecedence)
  | toSecondary (contactId primaryContactId : Nat)
deriving DecidableEq, Repr

structure Store where
  contacts : List Contact
  nextId : Nat
  now : Nat
  writeLog : List WriteOp
deriving DecidableEq, Repr

/-- The row a `createRow` statement inserts: autoincrement id, timestamps
from the clock, `deletedAt` null. -/
def newRow (s : Store) (email phoneNumber : Option String)
    (linkedId : Option Nat) (prec : LinkPrecedence) : Contact :=
  ⟨s.nextId, email, phoneNumber, linkedId, prec, s.now, s.now, none⟩

/-- The field updates of a `toSecondary` statement on the targeted row. -/
def demote (pid now : Nat) (c : Contact) : Contact :=
  { c with linkedId := some pid, linkPrecedence := .secondary, updatedAt := now }

/-- Effect of one committed write statement on the store. -/
def applyWrite (s : Store) (w : WriteOp) : Store :=
  match w with
  | .createRow e p lid prec =>
      { s with contacts := s.contacts ++ [newRow s e p lid prec],
               nextId := s.nextId + 1,
               writeLog := s.writeLog ++ [w] }
  | .toSecondary cid pid =>
      { s with contacts := s.contacts.map fun c =>
                 if c.id = cid then demote pid s.now c else c,
               writeLog := s.writeLog ++ [w] }

def applyWrites (s : Store) (ws : List WriteOp) : Store :=
  ws.foldl applyWrite s

/-- JavaScript truthiness of an optional string: null/undefined and "" are falsy. -/
def truthy : Option String → Bool
  | none => false
  | some s => !(s = "")

/-- JavaScript `x || null` on an optional string ("" coerces to null). -/
def orNullStr : Option String → Option String
  | none => none
  | some s => if s = "" then none else some s

/-- `email ? [email] : []`. -/
def truthyList : Option String → List String
  | none => []
  | some s => if s = "" then [] else [s]

/- ---------------------------------------------------------------------
String utilities: character-level versions of the JS string operations
used by src/utils/validation.ts (trim, toLowerCase, split, replace).
--------------------------------------------------------------------- -/

def trimChars (cs : List Char) : List Char :=
  ((cs.dropWhile Char.isWhitespace).reverse.dropWhile Char.isWhitespace).reverse

/-- JS `String.prototype.trim` (ASCII whitespace suffices for the inputs at hand). -/
def strTrim (s : String) : String := String.mk (trimChars s.toList)

/-- JS `String.prototype.toLowerCase` (ASCII). -/
def strLower (s : String) : String := String.mk (s.toList.map Char.toLower)

/-- Split a character list on a separator character (semantics of
`String.prototype.split` with a single-character separator). -/
def splitOnChar (sep : Char) : List Char → List (List Char)
  | [] => [[]]
  | c :: rest =>
    let r := splitOnChar sep rest
    if c = sep then [] :: r
    else
      match r with
      | [] => [[c]]
      | h :: t => (c :: h) :: t

/- ---------------------------------------------------------------------
src/utils/validation.ts
--------------------------------------------------------------------- -/

/-- Character class of the local part of `emailRegex`
(`[a-zA-Z0-9.!#$%&'*+/=?^_`{|}~-]`, the ticked and braced characters written
via code points). -/
def isLocalChar (c : Char) : Bool :=
  c.isAlpha || c.isDigit || c = '.' || c = '!' || c = '#' || c = '$' ||
  c = '%' || c = '&' || c = '*' || c = '+' || c = '/' || c = '=' ||
  c = '?' || c = '^' || c = '_' || c = '|' || c = '~' || c = '-' ||
  c = Char.ofNat 39 || c = Char.ofNat 96 || c = Char.ofNat 123 || c = Char.ofNat 125

def isLabelChar (c : Char) : Bool := c.isAlpha || c.isDigit

def isLabelMidChar (c : Char) : Bool := isLabelChar c || c = '-'

/-- One domain label of `emailRegex`:
`[a-zA-Z0-9](?:[a-zA-Z0-9-]{0,61}[a-zA-Z0-9])?` — length 1..63, first and
last character alphanumeric, interior alphanumeric or hyphen. -/
def validDomainLabel (cs : List Char) : Bool :=
  match cs with
  | [] => false
  | c :: rest =>
    isLabelChar c && (c :: rest).length ≤ 63 && rest.all isLabelMidChar &&
    (match rest.getLast? with
     | none => true
     | some l => isLabelChar l)

/-- `emailRegex.test`: `local@label(.label)*` with the classes above.  The
local part excludes `@`, so a matching string has exactly one `@`. -/
def emailRegexTest (s : String) : Bool :=
  match splitOnChar '@' s.toList with
  | [localPart, domain] =>
      !localPart.isEmpty && localPart.all isLocalChar &&
      (splitOnChar '.' domain).all validDomainLabel
  | _ => false

/-- `phoneRegex.test`: `^[\+]?[1-9][\d]{0,15}$`. -/
def phoneRegexTest (s : String) : Bool :=
  let ds := match s.toList with
            | '+' :: rest => rest
            | cs => cs
  match ds with
  | [] => false
  | d :: rest => (d.isDigit && !(d = '0')) && rest.all Char.isDigit && rest.length ≤ 15

/-- Characters removed by `validatePhoneNumber`'s
`replace(/[\s\-\(\)\.]/g, "")`. -/
def isPhoneJunk (c : Char) : Bool :=
  c.isWhitespace || c = '-' || c = '(' || c = ')' || c = '.'

def cleanPhone (s : String) : String :=
  String.mk (s.toList.filter fun c => !isPhoneJunk c)

/-- Errors thrown by the service layer (each constructor stands for one
`throw new Error(...)` site, plus `undefinedPrimary` for the TypeError a
field access on `undefined` would raise). -/
inductive IdErr where
  | invalidEmail
  | invalidPhone
  | missingInput
  | noExistingContacts
  | noPrimaryFound
  | unexpectedScenario
  | primaryNotFound
  | invalidContactState
  | undefinedPrimary
deriving DecidableEq, Repr

/-- `validateEmail` (src/utils/validation.ts): empty/whitespace-only input
normalizes to null, otherwise trim + lowercase and test against `emailRegex`. -/
def validateEmail : Option String → Except IdErr (Option String)
  | none => .ok none
  | some s =>
    if s = "" then .ok none
    else if strTrim s = "" then .ok none
    else
      let t := strLower (strTrim s)
      if emailRegexTest t then .ok (some t) else .error .invalidEmail

/-- `validatePhoneNumber` (src/utils/validation.ts), string input case. -/
def validatePhoneNumber : Option String → Except IdErr (Option String)
  | none => .ok none
  | some s =>
    if s = "" then .ok none
    else
      let str := strTrim s
      if str = "" then .ok none
      else
        let clean := cleanPhone str
        if phoneRegexTest clean then .ok (some clean) else .error .invalidPhone

/- ---------------------------------------------------------------------
src/models/contactRepository.ts
--------------------------------------------------------------------- -/

/-- Stable insertion step for sorting by `createdAt`. -/
def insertByCreatedAt (c : Contact) : List Contact → List Contact
  | [] => [c]
  | d :: rest =>
    if c.createdAt ≤ d.createdAt then c :: d :: rest
    else d :: insertByCreatedAt c rest

/-- `orderBy: { createdAt: "asc" }` — stable sort, ties in table order. -/
def sortByCreatedAt (l : List Contact) : List Contact :=
  l.foldr insertByCreatedAt []

/-- JS stable `.sort((a, b) => a.createdAt - b.createdAt)[0]`: the first
element with minimal `createdAt` (none on an empty array — JS `undefined`). -/
def oldestFirst (l : List Contact) : Option Contact :=
  (sortByCreatedAt l).head?

/-- `ContactRepository.findByEmailOrPhone` with `includeDeleted` unset: the
OR filter is built only from truthy criteria; with no condition the where
clause matches every non-deleted row. -/
def matchesOr (email phoneNumber : Option String) (c : Contact) : Bool :=
  if truthy email then
    if truthy phoneNumber then c.email == email || c.phoneNumber == phoneNumber
    else c.email == email
  else
    if truthy phoneNumber then c.phoneNumber == phoneNumber
    else true

def findByEmailOrPhone (s : Store) (email phoneNumber : Option String) : List Contact :=
  sortByCreatedAt (s.contacts.filter fun c =>
    c.deletedAt.isNone && matchesOr email phoneNumber c)

/-- `ContactRepository.findLinkedContacts`. -/
def findLinkedContacts (s : Store) (primaryContactId : Nat) : List Contact :=
  sortByCreatedAt (s.contacts.filter fun c =>
    (c.id == primaryContactId || c.linkedId == some primaryContactId) &&
    c.deletedAt.isNone)

/-- `prisma.contact.findUnique({ where: { id, deletedAt: null } })`. -/
def findUniqueActive (s : Store) (cid : Nat) : Option Contact :=
  s.contacts.find? fun c => c.id == cid && c.deletedAt.isNone

/-- `ContactRepository.findPrimaryContact`: recursive — already-primary rows
are returned, secondary rows recurse through `linkedId`, a missing row or a
null `linkedId` yields null.  The source recursion is unbounded (it would
diverge on a cyclic chain); `fuel` bounds it, and callers pass
`s.contacts.length + 1`, enough for any repetition-free chain. -/
def findPrimaryContact (s : Store) : Nat → Nat → Option Contact
  | 0, _ => none
  | fuel + 1, cid =>
    match findUniqueActive s cid with
    | none => none
    | some c =>
      if c.linkPrecedence.isPrimary then some c
      else
        match c.linkedId with
        | some lid => findPrimaryContact s fuel lid
        | none => none

/-- `ContactRepository.create` — returns the inserted row and the store after
the insert commits. -/
def create (s : Store) (email phoneNumber : Option String)
    (linkedId : Option Nat) (prec : LinkPrecedence) : Contact × Store :=
  (newRow s email phoneNumber linkedId prec,
   applyWrite s (.createRow email phoneNumber linkedId prec))

/-- `ContactRepository.convertToSecondary` (the returned updated row is not
used by the service, so only the store is returned). -/
def convertToSecondary (s : Store) (contactId primaryContactId : Nat) : Store :=
  applyWrite s (.toSecondary contactId primaryContactId)

/-- `ContactRepository.findExactMatch`: guard `!email && !phoneNumber`, then
`findFirst` with `email: email || null, phoneNumber: phoneNumber || null,
deletedAt: null` — a null side of the query matches exactly the rows whose
column is null. -/
def findExactMatch (s : Store) (email phoneNumber : Option String) : Option Contact :=
  if !truthy email && !truthy phoneNumber then none
  else
    s.contacts.find? fun c =>
      c.email == orNullStr email && c.phoneNumber == orNullStr phoneNumber &&
      c.deletedAt.isNone

/- ---------------------------------------------------------------------
src/services/contactSearchService.ts
--------------------------------------------------------------------- -/

/-- `ContactSearchService.findExactContactMatch`. -/
def findExactContactMatch (s : Store) (email phoneNumber : Option String) : Option Contact :=
  if !truthy email && !truthy phoneNumber then none
  else findExactMatch s email phoneNumber

/-- Result of `ContactSearchService.findPartialMatches`. -/
structure FieldMatches where
  emailMatches : List Contact
  phoneMatches : List Contact
  hasEmailMatch : Bool
  hasPhoneMatch : Bool
deriving DecidableEq, Repr

/-- `ContactSearchService.findPartialMatches` (renamed): each supplied field
is queried independently through `findByEmailOrPhone`. -/
def findFieldMatches (s : Store) (email phoneNumber : Option String) : FieldMatches :=
  let emailMatches := if truthy email then findByEmailOrPhone s email none else []
  let phoneMatches := if truthy phoneNumber then findByEmailOrPhone s none phoneNumber else []
  ⟨emailMatches, phoneMatches, !emailMatches.isEmpty, !phoneMatches.isEmpty⟩

/-- `Map.set` of the JS `Map<number, Contact>` keyed by id: replacing an
existing key keeps its position, a new key is appended. -/
def mapSet (m : List Contact) (c : Contact) : List Contact :=
  if m.any (fun x => x.id == c.id) then
    m.map fun x => if x.id == c.id then c else x
  else m ++ [c]

/-- `ContactSearchService.findAllRelatedContacts`: for every given contact,
resolve its primary (skipping the contact when resolution fails), then add
the primary and its whole linked group to the map; return the values sorted
by `createdAt`. -/
def findAllRelatedContacts (s : Store) (contacts : List Contact) : List Contact :=
  if contacts.isEmpty then []
  else
    let m := contacts.foldl
      (fun m contact =>
        let primOpt : Option Contact :=
          if contact.linkPrecedence.isPrimary then some contact
          else
            match contact.linkedId with
            | some lid => findPrimaryContact s (s.contacts.length + 1) lid
            | none => none
        match primOpt with
        | none => m
        | some primaryContact =>
          (findLinkedContacts s primaryContact.id).foldl mapSet (mapSet m primaryContact))
      []
    sortByCreatedAt m

/- ---------------------------------------------------------------------
src/services/identityLinkingService.ts
--------------------------------------------------------------------- -/

structure ConsolidatedContact where
  primaryContact : Contact
  secondaryContacts : List Contact
  allEmails : List String
  allPhoneNumbers : List String
deriving DecidableEq, Repr

/-- The collection loops of `getConsolidatedContact`: push the primary's
field if truthy, then each secondary's field if truthy and not yet present. -/
def collectField (f : Contact → Option String)
    (primaryContact : Contact) (secondaryContacts : List Contact) : List String :=
  secondaryContacts.foldl
    (fun acc c =>
      match f c with
      | some v => if !(v = "") && !acc.contains v then acc ++ [v] else acc
      | none => acc)
    (truthyList (f primaryContact))

/-- `IdentityLinkingService.getConsolidatedContact`: resolve the primary (one
explicit hop through `findPrimaryContact` when the argument is secondary),
load the linked group, sort the secondaries by `createdAt`, and collect the
unique emails and phone numbers starting from the primary's own values. -/
def getConsolidatedContact (s : Store) (contact : Contact) : Except IdErr ConsolidatedContact :=
  let primRes : Except IdErr Contact :=
    if contact.linkPrecedence.isPrimary then .ok contact
    else
      match contact.linkedId with
      | some lid =>
        match findPrimaryContact s (s.contacts.length + 1) lid with
        | some found => .ok found
        | none => .error .primaryNotFound
      | none => .error .invalidContactState
  match primRes with
  | .error e => .error e
  | .ok primaryContact =>
    let allLinkedContacts := findLinkedContacts s primaryContact.id
    let secondaryContacts :=
      sortByCreatedAt (allLinkedContacts.filter fun c => c.linkPrecedence.isSecondary)
    .ok ⟨primaryContact, secondaryContacts,
         collectField Contact.email primaryContact secondaryContacts,
         collectField Contact.phoneNumber primaryContact secondaryContacts⟩

/-- `IdentityLinkingService.createNewPrimaryContact`. -/
def createNewPrimaryContact (s : Store) (email phoneNumber : Option String) :
    Except IdErr ConsolidatedContact × Store :=
  let (newContact, s1) := create s email phoneNumber none .primary
  (.ok ⟨newContact, [], truthyList email, truthyList phoneNumber⟩, s1)

/-- `IdentityLinkingService.createSecondaryContact`: find the oldest primary
among the related contacts of the matches and attach a new secondary to it. -/
def createSecondaryContact (s : Store) (email phoneNumber : Option String)
    (existingContacts : List Contact) : Except IdErr ConsolidatedContact × Store :=
  if existingContacts.isEmpty then (.error .noExistingContacts, s)
  else
    let allRelated := findAllRelatedContacts s existingContacts
    match oldestFirst (allRelated.filter fun c => c.linkPrecedence.isPrimary) with
    | none => (.error .noPrimaryFound, s)
    | some primaryContact =>
      let (newSecondaryContact, s1) :=
        create s email phoneNumber (some primaryContact.id) .secondary
      (getConsolidatedContact s1 newSecondaryContact, s1)

/-- `IdentityLinkingService.mergeContactGroups`: the oldest of the gathered
primaries stays primary, every other gathered primary is converted to
secondary under it, then one new secondary with the observed pair is created.
Contacts that were secondaries of a converted primary are not touched. -/
def mergeContactGroups (s : Store) (email phoneNumber : Option String)
    (emailPrimaries phonePrimaries : List Contact) :
    Except IdErr ConsolidatedContact × Store :=
  let allPrimaries := emailPrimaries ++ phonePrimaries
  match oldestFirst allPrimaries with
  | none => (.error .undefinedPrimary, s)
  | some oldestPrimary =>
    let primariesToConvert := allPrimaries.filter fun p => !(p.id == oldestPrimary.id)
    let s1 := primariesToConvert.foldl
      (fun st p => convertToSecondary st p.id oldestPrimary.id) s
    let s2 :=
      if truthy email || truthy phoneNumber then
        (create s1 email phoneNumber (some oldestPrimary.id) .secondary).2
      else s1
    (getConsolidatedContact s2 oldestPrimary, s2)

/-- `IdentityLinkingService.handleComplexLinking`: both fields matched; if the
phone-side primaries intersect the email-side primaries the observation is in
one cluster already and only the consolidated view is returned, otherwise the
two clusters are merged. -/
def handleComplexLinking (s : Store) (email phoneNumber : Option String)
    (emailMatches phoneMatches : List Contact) :
    Except IdErr ConsolidatedContact × Store :=
  let emailRelated := findAllRelatedContacts s emailMatches
  let phoneRelated := findAllRelatedContacts s phoneMatches
  let emailPrimaries := emailRelated.filter fun c => c.linkPrecedence.isPrimary
  let phonePrimaries := phoneRelated.filter fun c => c.linkPrecedence.isPrimary
  let phoneInSameGroup :=
    phonePrimaries.any fun p => emailPrimaries.any fun q => q.id == p.id
  if phoneInSameGroup then
    match oldestFirst emailPrimaries with
    | none => (.error .undefinedPrimary, s)
    | some primaryContact => (getConsolidatedContact s primaryContact, s)
  else
    mergeContactGroups s email phoneNumber emailPrimaries phonePrimaries

/-- `IdentityLinkingService.handleLinkingScenario`. -/
def handleLinkingScenario (s : Store) (email phoneNumber : Option String)
    (fm : FieldMatches) : Except IdErr ConsolidatedContact × Store :=
  if !fm.hasEmailMatch && !fm.hasPhoneMatch then
    createNewPrimaryContact s email phoneNumber
  else if (fm.hasEmailMatch && !fm.hasPhoneMatch) || (!fm.hasEmailMatch && fm.hasPhoneMatch) then
    createSecondaryContact s email phoneNumber (fm.emailMatches ++ fm.phoneMatches)
  else if fm.hasEmailMatch && fm.hasPhoneMatch then
    handleComplexLinking s email phoneNumber fm.emailMatches fm.phoneMatches
  else
    (.error .unexpectedScenario, s)

/-- `IdentityLinkingService.identifyContact` — the `Resolve` operation:
validate and normalize, fail fast when both fields normalize to null, take
the exact-match short-circuit when it fires, otherwise dispatch on the
partial-match scenario. -/
def identifyContact (s : Store) (email phoneNumber : Option String) :
    Except IdErr ConsolidatedContact × Store :=
  match validateEmail email with
  | .error e => (.error e, s)
  | .ok normalizedEmail =>
    match validatePhoneNumber phoneNumber with
    | .error e => (.error e, s)
    | .ok normalizedPhone =>
      if !truthy normalizedEmail && !truthy normalizedPhone then
        (.error .missingInput, s)
      else
        match findExactContactMatch s normalizedEmail normalizedPhone with
        | some exactMatch => (getConsolidatedContact s exactMatch, s)
        | none =>
          handleLinkingScenario s normalizedEmail normalizedPhone
            (findFieldMatches s normalizedEmail normalizedPhone)

/- ---------------------------------------------------------------------
Derived notions used by the statements: invariants, the spec-side view
description, and concrete stores.
--------------------------------------------------------------------- -/

/-- Pointwise effect of the conversion loop of `mergeContactGroups`: rows
whose id is among the converted ids are demoted under `pid`. -/
def demoteIf (ids : List Nat) (pid now : Nat) (c : Contact) : Contact :=
  if ids.contains c.id then demote pid now c else c

/-- The contact list is sorted by `createdAt` (ascending, non-strict). -/
def sortedByCreatedAt : List Contact → Bool
  | [] => true
  | [_] => true
  | a :: b :: rest => decide (a.createdAt ≤ b.createdAt) && sortedByCreatedAt (b :: rest)

/-- Some non-deleted row with the given id exists. -/
def activeIdExists (cs : List Contact) (pid : Nat) : Bool :=
  cs.any fun d => d.id == pid && d.deletedAt.isNone

/-- Some non-deleted primary row with the given id exists. -/
def primaryIdExists (cs : List Contact) (pid : Nat) : Bool :=
  cs.any fun d => d.id == pid && d.deletedAt.isNone && d.linkPrecedence.isPrimary

/-- One row of the spec §3 link invariant: a secondary has a non-null
`linkedId` referencing an existing, non-deleted primary row. -/
def rowLinkPrimaryOk (cs : List Contact) (c : Contact) : Bool :=
  match c.linkPrecedence, c.linkedId with
  | .secondary, some pid => primaryIdExists cs pid
  | .secondary, none => false
  | .primary, _ => true

/-- Spec §3 invariant (the claim C2 invariant) over a whole store. -/
def storeInv (s : Store) : Bool :=
  s.contacts.all (rowLinkPrimaryOk s.contacts)

/-- Weakened link invariant: the target must exist and be non-deleted but
need not be primary. -/
def rowLinkActiveOk (cs : List Contact) (c : Contact) : Bool :=
  match c.linkPrecedence, c.linkedId with
  | .secondary, some pid => activeIdExists cs pid
  | .secondary, none => false
  | .primary, _ => true

/-- Weakened store invariant actually maintained by the code: every
secondary has a non-null `linkedId` referencing an existing, non-deleted
contact (possibly another secondary). -/
def storeInvActive (s : Store) : Bool :=
  s.contacts.all (rowLinkActiveOk s.contacts)

/-- Some non-deleted row carries exactly this (email, phoneNumber) pair,
compared field by field, nulls included. -/
def pairPresent (s : Store) (email phoneNumber : Option String) : Bool :=
  s.contacts.any fun c =>
    c.deletedAt.isNone && c.email == email && c.phoneNumber == phoneNumber

/-- Spec §4.1 step 5, modelled from the spec's words: keep the first
occurrence of each value, drop later duplicates. -/
def dedupKeepFirst (l : List String) : List String :=
  l.foldl (fun acc v => if acc.contains v then acc else acc ++ [v]) []

/-- Spec §4.1 step 5, modelled from the spec's words: the field values of
the cluster in order of first appearance, primary first, nulls skipped. -/
def clusterFieldValues (f : Contact → Option String)
    (primaryContact : Contact) (secondaries : List Contact) : List String :=
  (primaryContact :: secondaries).filterMap fun c => orNullStr (f c)

/- Concrete stores used in the counterexamples and witnesses.  `mc*` is a
two-cluster store whose second (losing) cluster has a secondary; `tc*` has
two primaries with equal `createdAt`; `nc1` has an email but a null phone;
`pc*` is one cluster whose pair values are split across primary and
secondary; `hc*` contains a two-hop link chain; `wc*` is a minimal
mergeable pair of primaries. -/

def mc1 : Contact := ⟨1, some "a@x.com", some "111", none, .primary, 1, 1, none⟩
def mc2 : Contact := ⟨2, some "b@y.com", some "222", none, .primary, 2, 2, none⟩
def mc3 : Contact := ⟨3, some "c@y.com", some "222", some 2, .secondary, 3, 3, none⟩
def storeMerge : Store := ⟨[mc1, mc2, mc3], 4, 10, []⟩

def tc1 : Contact := ⟨1, none, some "111", none, .primary, 5, 5, none⟩
def tc2 : Contact := ⟨2, some "a@x.com", none, none, .primary, 5, 5, none⟩
def storeTie : Store := ⟨[tc1, tc2], 3, 10, []⟩

def nc1 : Contact := ⟨1, some "a@x.com", none, none, .primary, 1, 1, none⟩
def storeNullPhone : Store := ⟨[nc1], 2, 10, []⟩

def pc1 : Contact := ⟨1, some "a@x.com", some "111", none, .primary, 1, 1, none⟩
def pc2 : Contact := ⟨2, some "b@x.com", some "222", some 1, .secondary, 2, 2, none⟩
def storeSplitPair : Store := ⟨[pc1, pc2], 3, 10, []⟩

def hc1 : Contact := ⟨1, some "a@x.com", none, none, .primary, 1, 1, none⟩
def hc2 : Contact := ⟨2, none, some "111", some 1, .secondary, 2, 2, none⟩
def hc3 : Contact := ⟨3, some "b@x.com", none, some 2, .secondary, 3, 3, none⟩
def storeChain : Store := ⟨[hc1, hc2, hc3], 4, 10, []⟩

def wc1 : Contact := ⟨1, some "a@x.com", none, none, .primary, 1, 1, none⟩
def wc2 : Contact := ⟨2, none, some "111", none, .primary, 2, 2, none⟩
def storeTwoPrimaries : Store := ⟨[wc1, wc2], 3, 10, []⟩

def storeEmpty : Store := ⟨[], 1, 10, []⟩

/-- The email-side primaries gathered by `handleComplexLinking` for the
normalized inputs. -/
def emailPrimariesOf (s : Store) (ne np : Option String) : List Contact :=
  (findAllRelatedContacts s (findFieldMatches s ne np).emailMatches).filter
    fun c => c.linkPrecedence.isPrimary

/-- The phone-side primaries gathered by `handleComplexLinking`. -/
def phonePrimariesOf (s : Store) (ne np : Option String) : List Contact :=
  (findAllRelatedContacts s (findFieldMatches s ne np).phoneMatches).filter
    fun c => c.linkPrecedence.isPrimary

/-- The same-cluster test of `handleComplexLinking`: some phone-side primary
has its id among the email-side primaries. -/
def phoneInSameGroupOf (s : Store) (ne np : Option String) : Bool :=
  (phonePrimariesOf s ne np).any fun q =>
    (emailPrimariesOf s ne np).any fun r => r.id == q.id

/-- Spec §4.1 step 5 as a property of a returned view: secondaries ordered by
`createdAt` ascending, and each value list equal to the distinct truthy
values of the cluster in order of first appearance, primary first. -/
def viewWellFormed (view : ConsolidatedContact) : Prop :=
  sortedByCreatedAt view.secondaryContacts = true ∧
  view.allEmails =
    dedupKeepFirst (clusterFieldValues Contact.email
      view.primaryContact view.secondaryContacts) ∧
  view.allPhoneNumbers =
    dedupKeepFirst (clusterFieldValues Contact.phoneNumber
      view.primaryContact view.secondaryContacts)

/- ---------------------------------------------------------------------
Lemmas about the stable sort and `oldestFirst`.
--------------------------------------------------------------------- -/

theorem mem_insertByCreatedAt {a c : Contact} {l : List Contact} :
    a ∈ insertByCreatedAt c l ↔ a = c ∨ a ∈ l := by
  induction l with
  | nil => simp [insertByCreatedAt]
  | cons d rest ih =>
    by_cases h : c.createdAt ≤ d.createdAt
    · simp [insertByCreatedAt, h]
    · simp only [insertByCreatedAt, if_neg h, List.mem_cons, ih]
      tauto

theorem mem_sortByCreatedAt {a : Contact} {l : List Contact} :
    a ∈ sortByCreatedAt l ↔ a ∈ l := by
  induction l with
  | nil => simp [sortByCreatedAt]
  | cons c rest ih =>
    show a ∈ insertByCreatedAt c (sortByCreatedAt rest) ↔ _
    rw [mem_insertByCreatedAt, ih]
    simp

theorem sortedByCreatedAt_cons {a : Contact} {l : List Contact}
    (hle : ∀ x ∈ l, a.createdAt ≤ x.createdAt)
    (hl : sortedByCreatedAt l = true) : sortedByCreatedAt (a :: l) = true := by
  cases l with
  | nil => rfl
  | cons b rest =>
    simp only [sortedByCreatedAt, Bool.and_eq_true, decide_eq_true_eq]
    exact ⟨hle b (by simp), hl⟩

theorem sortedByCreatedAt_of_cons {a : Contact} {l : List Contact}
    (h : sortedByCreatedAt (a :: l) = true) : sortedByCreatedAt l = true := by
  cases l with
  | nil => rfl
  | cons b rest =>
    simp only [sortedByCreatedAt, Bool.and_eq_true] at h
    exact h.2

theorem sortedByCreatedAt_head {a : Contact} {l : List Contact}
    (h : sortedByCreatedAt (a :: l) = true) :
    ∀ x ∈ l, a.createdAt ≤ x.createdAt := by
  induction l generalizing a with
  | nil => simp
  | cons b rest ih =>
    simp only [sortedByCreatedAt, Bool.and_eq_true, decide_eq_true_eq] at h
    intro x hx
    rcases List.mem_cons.1 hx with rfl | hx
    · exact h.1
    · exact Nat.le_trans h.1 (ih h.2 x hx)

theorem sortedByCreatedAt_insert {c : Contact} {l : List Contact}
    (h : sortedByCreatedAt l = true) :
    sortedByCreatedAt (insertByCreatedAt c l) = true := by
  induction l with
  | nil => rfl
  | cons d rest ih =>
    by_cases hle : c.createdAt ≤ d.createdAt
    · rw [insertByCreatedAt, if_pos hle]
      refine sortedByCreatedAt_cons ?_ h
      intro x hx
      rcases List.mem_cons.1 hx with rfl | hx
      · exact hle
      · exact Nat.le_trans hle (sortedByCreatedAt_head h x hx)
    · rw [insertByCreatedAt, if_neg hle]
      refine sortedByCreatedAt_cons ?_ (ih (sortedByCreatedAt_of_cons h))
      intro x hx
      rcases mem_insertByCreatedAt.1 hx with rfl | hx
      · exact Nat.le_of_not_le hle
      · exact sortedByCreatedAt_head h x hx

theorem sortedByCreatedAt_sort (l : List Contact) :
    sortedByCreatedAt (sortByCreatedAt l) = true := by
  induction l with
  | nil => rfl
  | cons c rest ih => exact sortedByCreatedAt_insert ih

/-- `oldestFirst` on a cons: the head wins unless a strictly older contact
appears further right (ties keep the leftmost). -/
theorem oldestFirst_cons (a : Contact) (l : List Contact) :
    oldestFirst (a :: l) =
      some (match oldestFirst l with
            | none => a
            | some w => if a.createdAt ≤ w.createdAt then a else w) := by
  show (insertByCreatedAt a (sortByCreatedAt l)).head? = _
  cases h : sortByCreatedAt l with
  | nil => simp [oldestFirst, h, insertByCreatedAt]
  | cons d rest =>
    by_cases hle : a.createdAt ≤ d.createdAt
    · simp [oldestFirst, h, insertByCreatedAt, hle]
    · simp [oldestFirst, h, insertByCreatedAt, hle]

theorem oldestFirst_mem {l : List Contact} : ∀ {w : Contact},
    oldestFirst l = some w → w ∈ l := by
  induction l with
  | nil => intro w h; simp [oldestFirst, sortByCreatedAt] at h
  | cons a rest ih =>
    intro w h
    rw [oldestFirst_cons] at h
    cases hr : oldestFirst rest with
    | none => rw [hr] at h; simp_all
    | some v =>
      rw [hr] at h
      by_cases hle : a.createdAt ≤ v.createdAt
      · simp only [hle, if_true, Option.some.injEq] at h
        simp [← h]
      · simp only [hle, if_false, Option.some.injEq] at h
        subst h
        exact List.mem_cons_of_mem a (ih hr)

theorem oldestFirst_min {l : List Contact} : ∀ {w : Contact},
    oldestFirst l = some w → ∀ x ∈ l, w.createdAt ≤ x.createdAt := by
  induction l with
  | nil => simp
  | cons a rest ih =>
    intro w h x hx
    rw [oldestFirst_cons] at h
    cases hr : oldestFirst rest with
    | none =>
      rw [hr] at h
      cases rest with
      | nil =>
        simp only [Option.some.injEq] at h
        rcases List.mem_cons.1 hx with rfl | hx
        · exact h ▸ Nat.le_refl _
        · simp at hx
      | cons b rest2 => rw [oldestFirst_cons] at hr; simp at hr
    | some v =>
      rw [hr] at h
      by_cases hle : a.createdAt ≤ v.createdAt
      · simp only [hle, if_true, Option.some.injEq] at h
        subst h
        rcases List.mem_cons.1 hx with rfl | hx
        · exact Nat.le_refl _
        · exact Nat.le_trans hle (ih hr x hx)
      · simp only [hle, if_false, Option.some.injEq] at h
        subst h
        rcases List.mem_cons.1 hx with rfl | hx
        · exact Nat.le_of_not_le hle
        · exact ih hr x hx

/-- `oldestFirst` returns the leftmost minimum: everything strictly to its
left was created strictly later. -/
theorem oldestFirst_split {l : List Contact} : ∀ {w : Contact},
    oldestFirst l = some w →
    ∃ l1 l2, l = l1 ++ w :: l2 ∧ ∀ x ∈ l1, w.createdAt < x.createdAt := by
  induction l with
  | nil => intro w h; simp [oldestFirst, sortByCreatedAt] at h
  | cons a rest ih =>
    intro w h
    rw [oldestFirst_cons] at h
    cases hr : oldestFirst rest with
    | none =>
      rw [hr] at h
      simp only [Option.some.injEq] at h
      exact ⟨[], rest, by simp [h], by simp⟩
    | some v =>
      rw [hr] at h
      by_cases hle : a.createdAt ≤ v.createdAt
      · simp only [hle, if_true, Option.some.injEq] at h
        exact ⟨[], rest, by simp [h], by simp⟩
      · simp only [hle, if_false, Option.some.injEq] at h
        subst h
        obtain ⟨l1, l2, heq, hgt⟩ := ih hr
        refine ⟨a :: l1, l2, by simp [heq], ?_⟩
        intro x hx
        rcases List.mem_cons.1 hx with rfl | hx
        · exact Nat.lt_of_not_le hle
        · exact hgt x hx

theorem oldestFirst_isSome {l : List Contact} (h : l ≠ []) :
    (oldestFirst l).isSome = true := by
  cases l with
  | nil => exact absurd rfl h
  | cons a rest => rw [oldestFirst_cons]; rfl

/- ---------------------------------------------------------------------
Characterization of the conversion loop and of `mergeContactGroups`.
--------------------------------------------------------------------- -/

theorem demote_demote (pid now : Nat) (c : Contact) :
    demote pid now (demote pid now c) = demote pid now c := rfl

theorem demoteIf_after_one (ids : List Nat) (pid now aid : Nat) (c : Contact) :
    demoteIf ids pid now (if c.id = aid then demote pid now c else c)
      = demoteIf (aid :: ids) pid now c := by
  by_cases h : c.id = aid
  · simp only [h, if_pos rfl, demoteIf, demote]
    by_cases hc : ids.contains c.id
    · simp [demote, h, hc, List.contains_cons]
    · simp [demote, h, hc, List.contains_cons]
  · simp only [if_neg h, demoteIf, List.contains_cons]
    have : (c.id == aid) = false := by simp [h]
    simp [this]

theorem demoteIf_nil (pid now : Nat) (c : Contact) : demoteIf [] pid now c = c := rfl

theorem convert_foldl (L : List Contact) (pid : Nat) : ∀ s : Store,
    L.foldl (fun st q => convertToSecondary st q.id pid) s
      = { s with
          contacts := s.contacts.map (demoteIf (L.map Contact.id) pid s.now),
          writeLog := s.writeLog ++ L.map fun q => WriteOp.toSecondary q.id pid } := by
  induction L with
  | nil =>
    intro s
    simp only [List.foldl_nil, List.map_nil, List.append_nil]
    rw [show demoteIf ([] : List Nat) pid s.now = fun c => c from funext fun c => rfl]
    simp
  | cons a rest ih =>
    intro s
    show rest.foldl _ (convertToSecondary s a.id pid) = _
    rw [ih]
    simp only [convertToSecondary, applyWrite, List.map_map]
    rw [show (demoteIf (List.map Contact.id rest) pid s.now ∘
          fun c => if c.id = a.id then demote pid s.now c else c)
        = demoteIf (a.id :: List.map Contact.id rest) pid s.now from
        funext fun c => demoteIf_after_one (rest.map Contact.id) pid s.now a.id c]
    simp [List.append_assoc]

/-- The store after `mergeContactGroups`, given the winner: every gathered
primary other than the winner is demoted under the winner's id, the other
rows are untouched, and (when a field is truthy) one new secondary with the
observed pair is inserted; both kinds of statement are appended to the log. -/
theorem mergeContactGroups_snd (s : Store) (e p : Option String)
    (eP pP : List Contact) (w : Contact)
    (hw : oldestFirst (eP ++ pP) = some w) :
    (mergeContactGroups s e p eP pP).2 =
      (let losers := (eP ++ pP).filter fun x => !(x.id == w.id)
       let s1 : Store :=
         { s with
           contacts := s.contacts.map (demoteIf (losers.map Contact.id) w.id s.now),
           writeLog := s.writeLog ++ losers.map fun x => WriteOp.toSecondary x.id w.id }
       if truthy e || truthy p then applyWrite s1 (.createRow e p (some w.id) .secondary)
       else s1) := by
  unfold mergeContactGroups
  simp only [hw]
  simp only [create, convert_foldl]

/- ---------------------------------------------------------------------
Lemmas about lookups: membership, activeness, primary resolution.
--------------------------------------------------------------------- -/

theorem isPrimary_eq {p : LinkPrecedence} : p.isPrimary = true ↔ p = .primary := by
  cases p <;> simp [LinkPrecedence.isPrimary]

theorem isSecondary_eq {p : LinkPrecedence} : p.isSecondary = true ↔ p = .secondary := by
  cases p <;> simp [LinkPrecedence.isSecondary]

theorem findUniqueActive_some {s : Store} {cid : Nat} {c : Contact}
    (h : findUniqueActive s cid = some c) :
    c ∈ s.contacts ∧ c.id = cid ∧ c.deletedAt = none := by
  have hm := List.mem_of_find?_eq_some h
  have hp := List.find?_some h
  simp only [Bool.and_eq_true, beq_iff_eq, Option.isNone_iff_eq_none] at hp
  exact ⟨hm, hp.1, hp.2⟩

/-- Whatever `findPrimaryContact` returns is an existing, non-deleted
primary row — it recurses through any number of hops to reach it and never
reports an error for a broken chain (it returns null instead). -/
theorem findPrimaryContact_good {s : Store} : ∀ {fuel cid : Nat} {c : Contact},
    findPrimaryContact s fuel cid = some c →
    c.linkPrecedence = .primary ∧ c ∈ s.contacts ∧ c.deletedAt = none := by
  intro fuel
  induction fuel with
  | zero => intro cid c h; simp [findPrimaryContact] at h
  | succ n ih =>
    intro cid c h
    rw [findPrimaryContact] at h
    cases hu : findUniqueActive s cid with
    | none =>
      rw [hu] at h
      exact Option.noConfusion (show (none : Option Contact) = some c from h)
    | some d =>
      rw [hu] at h
      have h2 : (if d.linkPrecedence.isPrimary then some d
                 else match d.linkedId with
                      | some lid => findPrimaryContact s n lid
                      | none => none) = some c := h
      by_cases hp : d.linkPrecedence.isPrimary
      · rw [if_pos hp] at h2
        simp only [Option.some.injEq] at h2
        subst h2
        obtain ⟨hm, _, hd⟩ := findUniqueActive_some hu
        exact ⟨isPrimary_eq.1 hp, hm, hd⟩
      · rw [if_neg hp] at h2
        cases hl : d.linkedId with
        | none =>
          rw [hl] at h2
          exact Option.noConfusion (show (none : Option Contact) = some c from h2)
        | some lid =>
          rw [hl] at h2
          exact ih (show findPrimaryContact s n lid = some c from h2)

/-- One more hop: on a non-deleted secondary row the lookup recurses through
`linkedId` instead of failing. -/
theorem findPrimaryContact_hop {s : Store} {fuel cid lid : Nat} {c : Contact}
    (hu : findUniqueActive s cid = some c)
    (hs : c.linkPrecedence = .secondary) (hl : c.linkedId = some lid) :
    findPrimaryContact s (fuel + 1) cid = findPrimaryContact s fuel lid := by
  rw [findPrimaryContact, hu]
  show (if c.linkPrecedence.isPrimary then some c
        else match c.linkedId with
             | some l => findPrimaryContact s fuel l
             | none => none) = findPrimaryContact s fuel lid
  rw [hs, hl]
  simp [LinkPrecedence.isPrimary]

theorem mem_findByEmailOrPhone {s : Store} {e p : Option String} {c : Contact}
    (h : c ∈ findByEmailOrPhone s e p) :
    c ∈ s.contacts ∧ c.deletedAt = none := by
  rw [findByEmailOrPhone, mem_sortByCreatedAt] at h
  obtain ⟨hm, hp⟩ := List.mem_filter.1 h
  simp only [Bool.and_eq_true, Option.isNone_iff_eq_none] at hp
  exact ⟨hm, hp.1⟩

theorem mem_findLinkedContacts {s : Store} {pid : Nat} {c : Contact}
    (h : c ∈ findLinkedContacts s pid) :
    c ∈ s.contacts ∧ c.deletedAt = none := by
  rw [findLinkedContacts, mem_sortByCreatedAt] at h
  obtain ⟨hm, hp⟩ := List.mem_filter.1 h
  simp only [Bool.and_eq_true, Option.isNone_iff_eq_none] at hp
  exact ⟨hm, hp.2⟩

theorem mem_mapSet {m : List Contact} {c x : Contact} (h : x ∈ mapSet m c) :
    x ∈ m ∨ x = c := by
  unfold mapSet at h
  by_cases ha : m.any fun y => y.id == c.id
  · rw [if_pos ha] at h
    obtain ⟨y, hy, heq⟩ := List.mem_map.1 h
    by_cases hid : y.id == c.id
    · rw [if_pos hid] at heq; exact Or.inr heq.symm
    · rw [if_neg hid] at heq; exact Or.inl (heq ▸ hy)
  · rw [if_neg ha] at h
    rcases List.mem_append.1 h with h | h
    · exact Or.inl h
    · simp only [List.mem_singleton] at h; exact Or.inr h

theorem foldl_invariant {α β : Type} {f : β → α → β} {Q : β → Prop} :
    ∀ (l : List α) (b : β), Q b → (∀ b a, a ∈ l → Q b → Q (f b a)) →
    Q (l.foldl f b) := by
  intro l
  induction l with
  | nil => intro b hb _; exact hb
  | cons a rest ih =>
    intro b hb hstep
    exact ih (f b a) (hstep b a (by simp) hb)
      (fun b x hx hQ => hstep b x (by simp [hx]) hQ)

/-- Every contact returned by `findAllRelatedContacts` is an existing,
non-deleted row of the store, provided the inputs are. -/
theorem findAllRelatedContacts_good {s : Store} {inputs : List Contact}
    (hin : ∀ c ∈ inputs, c ∈ s.contacts ∧ c.deletedAt = none) :
    ∀ x ∈ findAllRelatedContacts s inputs,
      x ∈ s.contacts ∧ x.deletedAt = none := by
  unfold findAllRelatedContacts
  by_cases he : inputs.isEmpty
  · simp [he]
  · rw [if_neg he]
    intro x hx
    rw [mem_sortByCreatedAt] at hx
    refine @foldl_invariant Contact (List Contact) _
      (fun m => ∀ y ∈ m, y ∈ s.contacts ∧ y.deletedAt = none)
      inputs [] (by simp) ?_ x hx
    intro m contact hc hQ y hy
    cases hprim : (if contact.linkPrecedence.isPrimary then some contact
        else match contact.linkedId with
             | some lid => findPrimaryContact s (s.contacts.length + 1) lid
             | none => none) with
    | none =>
      rw [hprim] at hy
      exact hQ y hy
    | some pc =>
      rw [hprim] at hy
      replace hy : y ∈ (findLinkedContacts s pc.id).foldl mapSet (mapSet m pc) := hy
      have hpc : pc ∈ s.contacts ∧ pc.deletedAt = none := by
        by_cases hp : contact.linkPrecedence.isPrimary
        · rw [if_pos hp] at hprim
          simp only [Option.some.injEq] at hprim
          subst hprim
          exact hin contact hc
        · rw [if_neg hp] at hprim
          cases hl : contact.linkedId with
          | none =>
            rw [hl] at hprim
            exact Option.noConfusion
              (show (none : Option Contact) = some pc from hprim)
          | some lid =>
            rw [hl] at hprim
            obtain ⟨_, hm, hd⟩ := findPrimaryContact_good
              (show findPrimaryContact s (s.contacts.length + 1) lid = some pc from hprim)
            exact ⟨hm, hd⟩
      refine @foldl_invariant Contact (List Contact) _
        (fun m2 => ∀ z ∈ m2, z ∈ s.contacts ∧ z.deletedAt = none)
        (findLinkedContacts s pc.id) (mapSet m pc) ?_ ?_ y hy
      · intro z hz
        rcases mem_mapSet hz with hz | rfl
        · exact hQ z hz
        · exact hpc
      · intro m2 a ha hQ2 z hz
        rcases mem_mapSet hz with hz | rfl
        · exact hQ2 z hz
        · exact mem_findLinkedContacts ha

/- ---------------------------------------------------------------------
Characterization of `findExactMatch` and of the view-building code.
--------------------------------------------------------------------- -/

theorem findExactMatch_isSome_iff (s : Store) (e p : Option String) :
    (findExactMatch s e p).isSome = true ↔
      ((truthy e || truthy p) = true ∧
       ∃ c, c ∈ s.contacts ∧ c.deletedAt = none ∧
            c.email = orNullStr e ∧ c.phoneNumber = orNullStr p) := by
  unfold findExactMatch
  by_cases h : (!truthy e && !truthy p) = true
  · rw [if_pos h]
    simp only [Bool.and_eq_true, Bool.not_eq_true'] at h
    simp [h.1, h.2]
  · rw [if_neg h]
    have he : (truthy e || truthy p) = true := by
      cases te : truthy e <;> cases tp : truthy p <;> simp_all
    rw [List.find?_isSome]
    simp only [he, true_and, Bool.and_eq_true, beq_iff_eq,
      Option.isNone_iff_eq_none]
    constructor
    · rintro ⟨c, hm, ⟨he2, hp2⟩, hd⟩
      exact ⟨c, hm, hd, he2, hp2⟩
    · rintro ⟨c, hm, hd, he2, hp2⟩
      exact ⟨c, hm, ⟨he2, hp2⟩, hd⟩

theorem truthyList_eq (o : Option String) :
    truthyList o = (match orNullStr o with
                    | some v => [v]
                    | none => []) := by
  cases o with
  | none => rfl
  | some s =>
    by_cases h : s = "" <;> simp [truthyList, orNullStr, h]

theorem collectField_foldl_eq (f : Contact → Option String) :
    ∀ (l : List Contact) (acc : List String),
      l.foldl (fun acc c =>
        match f c with
        | some v => if !(v = "") && !acc.contains v then acc ++ [v] else acc
        | none => acc) acc
      = (l.filterMap fun c => orNullStr (f c)).foldl
          (fun acc v => if acc.contains v then acc else acc ++ [v]) acc := by
  intro l
  induction l with
  | nil => intro acc; rfl
  | cons c rest ih =>
    intro acc
    rw [List.foldl_cons, List.filterMap_cons]
    have hstep : (match f c with
        | some v => if !(v = "") && !acc.contains v then acc ++ [v] else acc
        | none => acc)
        = (match orNullStr (f c) with
           | some v => if acc.contains v then acc else acc ++ [v]
           | none => acc) := by
      cases hf : f c with
      | none => rfl
      | some v =>
        by_cases hv : v = ""
        · simp [orNullStr, hv]
        · simp only [orNullStr, if_neg hv]
          by_cases hc : v ∈ acc
          · simp [hc, hv]
          · simp [hc, hv]
    rw [hstep]
    cases ho : orNullStr (f c) with
    | none => exact ih acc
    | some v =>
      rw [List.foldl_cons]
      exact ih _

/-- The email/phone collection loops of `getConsolidatedContact` compute
exactly the spec description: the distinct truthy values of the cluster in
order of first appearance, primary first. -/
theorem collectField_eq_dedup (f : Contact → Option String)
    (pc : Contact) (secs : List Contact) :
    collectField f pc secs = dedupKeepFirst (clusterFieldValues f pc secs) := by
  unfold collectField dedupKeepFirst clusterFieldValues
  rw [List.filterMap_cons]
  cases hf : orNullStr (f pc) with
  | none =>
    rw [collectField_foldl_eq, truthyList_eq, hf]
  | some v =>
    rw [collectField_foldl_eq, truthyList_eq, hf, List.foldl_cons]
    simp

/- ---------------------------------------------------------------------
Well-formedness of the views produced by the service.
--------------------------------------------------------------------- -/

theorem getConsolidatedContact_ok {s : Store} {c : Contact}
    {view : ConsolidatedContact}
    (h : getConsolidatedContact s c = .ok view) : viewWellFormed view := by
  simp only [getConsolidatedContact] at h
  split at h
  · exact Except.noConfusion h
  · injection h with h2
    subst h2
    exact ⟨sortedByCreatedAt_sort _, collectField_eq_dedup _ _ _,
      collectField_eq_dedup _ _ _⟩

theorem createNewPrimaryContact_ok {s : Store} {e p : Option String}
    {view : ConsolidatedContact}
    (h : (createNewPrimaryContact s e p).1 = .ok view) : viewWellFormed view := by
  simp only [createNewPrimaryContact, create] at h
  injection h with h2
  subst h2
  refine ⟨rfl, ?_, ?_⟩
  · show truthyList e = dedupKeepFirst (clusterFieldValues Contact.email (newRow s e p none .primary) [])
    rw [truthyList_eq]
    simp only [clusterFieldValues, List.filterMap_cons, List.filterMap_nil, newRow]
    cases orNullStr e with
    | none => rfl
    | some v => simp [dedupKeepFirst]
  · show truthyList p = dedupKeepFirst (clusterFieldValues Contact.phoneNumber (newRow s e p none .primary) [])
    rw [truthyList_eq]
    simp only [clusterFieldValues, List.filterMap_cons, List.filterMap_nil, newRow]
    cases orNullStr p with
    | none => rfl
    | some v => simp [dedupKeepFirst]

theorem createSecondaryContact_ok {s : Store} {e p : Option String}
    {l : List Contact} {view : ConsolidatedContact}
    (h : (createSecondaryContact s e p l).1 = .ok view) : viewWellFormed view := by
  simp only [createSecondaryContact] at h
  by_cases he : l.isEmpty
  · rw [if_pos he] at h
    exact Except.noConfusion h
  · rw [if_neg he] at h
    cases ho : oldestFirst ((findAllRelatedContacts s l).filter
        fun c => c.linkPrecedence.isPrimary) with
    | none =>
      rw [ho] at h
      exact Except.noConfusion (show Except.error IdErr.noPrimaryFound = Except.ok view from h)
    | some pc =>
      rw [ho] at h
      exact getConsolidatedContact_ok h

theorem mergeContactGroups_ok {s : Store} {e p : Option String}
    {eP pP : List Contact} {view : ConsolidatedContact}
    (h : (mergeContactGroups s e p eP pP).1 = .ok view) : viewWellFormed view := by
  simp only [mergeContactGroups] at h
  cases ho : oldestFirst (eP ++ pP) with
  | none =>
    rw [ho] at h
    exact Except.noConfusion (show Except.error IdErr.undefinedPrimary = Except.ok view from h)
  | some w =>
    rw [ho] at h
    exact getConsolidatedContact_ok h

theorem handleComplexLinking_ok {s : Store} {e p : Option String}
    {eM pM : List Contact} {view : ConsolidatedContact}
    (h : (handleComplexLinking s e p eM pM).1 = .ok view) : viewWellFormed view := by
  simp only [handleComplexLinking] at h
  split at h
  · cases ho : oldestFirst ((findAllRelatedContacts s eM).filter
        fun c => c.linkPrecedence.isPrimary) with
    | none =>
      rw [ho] at h
      exact Except.noConfusion (show Except.error IdErr.undefinedPrimary = Except.ok view from h)
    | some pc =>
      rw [ho] at h
      exact getConsolidatedContact_ok h
  · exact mergeContactGroups_ok h

theorem handleLinkingScenario_ok {s : Store} {e p : Option String}
    {fm : FieldMatches} {view : ConsolidatedContact}
    (h : (handleLinkingScenario s e p fm).1 = .ok view) : viewWellFormed view := by
  unfold handleLinkingScenario at h
  split at h
  · exact createNewPrimaryContact_ok h
  · split at h
    · exact createSecondaryContact_ok h
    · split at h
      · exact handleComplexLinking_ok h
      · exact Except.noConfusion h

/- ---------------------------------------------------------------------
Preservation of the weakened link invariant `storeInvActive`.
--------------------------------------------------------------------- -/

theorem activeIdExists_map_demoteIf (cs : List Contact) (ids : List Nat)
    (pid now q : Nat) :
    activeIdExists (cs.map (demoteIf ids pid now)) q = activeIdExists cs q := by
  induction cs with
  | nil => rfl
  | cons c rest ih =>
    simp only [activeIdExists, List.map_cons, List.any_cons] at ih ⊢
    rw [show (demoteIf ids pid now c).id = c.id from by
          unfold demoteIf demote; split <;> rfl,
        show (demoteIf ids pid now c).deletedAt = c.deletedAt from by
          unfold demoteIf demote; split <;> rfl,
        ih]

theorem activeIdExists_append (cs l : List Contact) (q : Nat)
    (h : activeIdExists cs q = true) : activeIdExists (cs ++ l) q = true := by
  unfold activeIdExists at h ⊢
  rw [List.any_append, h]
  rfl

theorem activeIdExists_of_mem {cs : List Contact} {c : Contact}
    (hm : c ∈ cs) (hd : c.deletedAt = none) : activeIdExists cs c.id = true := by
  unfold activeIdExists
  rw [List.any_eq_true]
  exact ⟨c, hm, by simp [hd]⟩

theorem rowLinkActiveOk_map_demoteIf (cs : List Contact) (ids : List Nat)
    (pid now : Nat) (c : Contact) :
    rowLinkActiveOk (cs.map (demoteIf ids pid now)) c = rowLinkActiveOk cs c := by
  obtain ⟨i, em, ph, lnk, prec, ca, ua, da⟩ := c
  cases prec <;> cases lnk <;>
    simp [rowLinkActiveOk, activeIdExists_map_demoteIf]

theorem rowLinkActiveOk_mono {cs l : List Contact} {c : Contact}
    (h : rowLinkActiveOk cs c = true) : rowLinkActiveOk (cs ++ l) c = true := by
  obtain ⟨i, em, ph, lnk, prec, ca, ua, da⟩ := c
  cases prec <;> cases lnk <;> simp_all [rowLinkActiveOk]
  exact activeIdExists_append _ _ _ h

theorem allRowLinkActive_demote (cs : List Contact) (ids : List Nat)
    (pid now : Nat)
    (h : cs.all (rowLinkActiveOk cs) = true)
    (hpid : activeIdExists cs pid = true) :
    (cs.map (demoteIf ids pid now)).all
      (rowLinkActiveOk (cs.map (demoteIf ids pid now))) = true := by
  rw [List.all_eq_true] at h ⊢
  intro x hx
  obtain ⟨c, hc, rfl⟩ := List.mem_map.1 hx
  rw [rowLinkActiveOk_map_demoteIf]
  unfold demoteIf
  by_cases hin : ids.contains c.id
  · rw [if_pos hin]
    exact hpid
  · rw [if_neg hin]
    exact h c hc

theorem allRowLinkActive_append (cs : List Contact) (r : Contact)
    (h : cs.all (rowLinkActiveOk cs) = true)
    (hr : rowLinkActiveOk cs r = true) :
    (cs ++ [r]).all (rowLinkActiveOk (cs ++ [r])) = true := by
  rw [List.all_eq_true] at h ⊢
  intro x hx
  rcases List.mem_append.1 hx with hx | hx
  · exact rowLinkActiveOk_mono (h x hx)
  · simp only [List.mem_singleton] at hx
    subst hx
    exact rowLinkActiveOk_mono hr

theorem storeInvActive_createNewPrimary (s : Store) (e p : Option String)
    (hs : storeInvActive s = true) :
    storeInvActive (createNewPrimaryContact s e p).2 = true := by
  show storeInvActive (applyWrite s (.createRow e p none .primary)) = true
  simp only [storeInvActive, applyWrite]
  exact allRowLinkActive_append _ _ hs rfl

theorem findFieldMatches_good (s : Store) (e p : Option String) :
    ∀ c ∈ (findFieldMatches s e p).emailMatches ++ (findFieldMatches s e p).phoneMatches,
      c ∈ s.contacts ∧ c.deletedAt = none := by
  intro c hc
  rcases List.mem_append.1 hc with hc | hc
  · simp only [findFieldMatches] at hc
    by_cases ht : truthy e
    · rw [if_pos ht] at hc
      exact mem_findByEmailOrPhone hc
    · rw [if_neg ht] at hc
      simp at hc
  · simp only [findFieldMatches] at hc
    by_cases ht : truthy p
    · rw [if_pos ht] at hc
      exact mem_findByEmailOrPhone hc
    · rw [if_neg ht] at hc
      simp at hc

theorem storeInvActive_createSecondary (s : Store) (e p : Option String)
    (l : List Contact)
    (hs : storeInvActive s = true)
    (hl : ∀ c ∈ l, c ∈ s.contacts ∧ c.deletedAt = none) :
    storeInvActive (createSecondaryContact s e p l).2 = true := by
  simp only [createSecondaryContact]
  by_cases he : l.isEmpty
  · rw [if_pos he]
    exact hs
  · rw [if_neg he]
    cases ho : oldestFirst ((findAllRelatedContacts s l).filter
        fun c => c.linkPrecedence.isPrimary) with
    | none => exact hs
    | some pc =>
      have hpc : pc ∈ s.contacts ∧ pc.deletedAt = none := by
        have hmem := oldestFirst_mem ho
        exact findAllRelatedContacts_good hl pc (List.mem_filter.1 hmem).1
      show storeInvActive (applyWrite s (.createRow e p (some pc.id) .secondary)) = true
      simp only [storeInvActive, applyWrite]
      exact allRowLinkActive_append _ _ hs (activeIdExists_of_mem hpc.1 hpc.2)

theorem storeInvActive_merge (s : Store) (e p : Option String)
    (eP pP : List Contact)
    (hs : storeInvActive s = true)
    (hgood : ∀ c ∈ eP ++ pP, c ∈ s.contacts ∧ c.deletedAt = none) :
    storeInvActive (mergeContactGroups s e p eP pP).2 = true := by
  cases ho : oldestFirst (eP ++ pP) with
  | none =>
    simp only [mergeContactGroups, ho]
    exact hs
  | some w =>
    rw [mergeContactGroups_snd s e p eP pP w ho]
    have hw := hgood w (oldestFirst_mem ho)
    have hpidS : activeIdExists s.contacts w.id = true :=
      activeIdExists_of_mem hw.1 hw.2
    have hdem := allRowLinkActive_demote s.contacts
      (((eP ++ pP).filter fun x => !(x.id == w.id)).map Contact.id) w.id s.now hs hpidS
    by_cases ht : (truthy e || truthy p) = true
    · rw [if_pos ht]
      simp only [storeInvActive, applyWrite]
      refine allRowLinkActive_append _ _ hdem ?_
      show activeIdExists (s.contacts.map (demoteIf _ w.id s.now)) w.id = true
      rw [activeIdExists_map_demoteIf]
      exact hpidS
    · rw [if_neg ht]
      exact hdem

theorem storeInvActive_complex (s : Store) (e p : Option String)
    (eM pM : List Contact)
    (hs : storeInvActive s = true)
    (hgoodE : ∀ c ∈ eM, c ∈ s.contacts ∧ c.deletedAt = none)
    (hgoodP : ∀ c ∈ pM, c ∈ s.contacts ∧ c.deletedAt = none) :
    storeInvActive (handleComplexLinking s e p eM pM).2 = true := by
  simp only [handleComplexLinking]
  split
  · cases ho : oldestFirst ((findAllRelatedContacts s eM).filter
        fun c => c.linkPrecedence.isPrimary) with
    | none => exact hs
    | some pc => exact hs
  · refine storeInvActive_merge s e p _ _ hs ?_
    intro c hc
    rcases List.mem_append.1 hc with hc | hc
    · exact findAllRelatedContacts_good hgoodE c (List.mem_filter.1 hc).1
    · exact findAllRelatedContacts_good hgoodP c (List.mem_filter.1 hc).1

theorem storeInvActive_scenario (s : Store) (e p : Option String)
    (hs : storeInvActive s = true) :
    storeInvActive (handleLinkingScenario s e p (findFieldMatches s e p)).2 = true := by
  unfold handleLinkingScenario
  split
  · exact storeInvActive_createNewPrimary s e p hs
  · split
    · exact storeInvActive_createSecondary s e p _ hs (findFieldMatches_good s e p)
    · split
      · refine storeInvActive_complex s e p _ _ hs ?_ ?_
        · intro c hc
          exact findFieldMatches_good s e p c (List.mem_append.2 (Or.inl hc))
        · intro c hc
          exact findFieldMatches_good s e p c (List.mem_append.2 (Or.inr hc))
      · exact hs

/- ---------------------------------------------------------------------
Path lemmas for the complex-linking branches of `identifyContact`.
--------------------------------------------------------------------- -/

theorem hasEmailMatch_truthy {s : Store} {e p : Option String}
    (h : (findFieldMatches s e p).hasEmailMatch = true) : truthy e = true := by
  simp only [findFieldMatches] at h
  by_cases ht : truthy e
  · exact ht
  · rw [if_neg ht] at h
    simp at h

theorem hasPhoneMatch_truthy {s : Store} {e p : Option String}
    (h : (findFieldMatches s e p).hasPhoneMatch = true) : truthy p = true := by
  simp only [findFieldMatches] at h
  by_cases ht : truthy p
  · exact ht
  · rw [if_neg ht] at h
    simp at h

theorem orNullStr_truthy {o : Option String} (h : truthy o = true) :
    orNullStr o = o := by
  cases o with
  | none => simp [truthy] at h
  | some v =>
    simp only [truthy, Bool.not_eq_true', decide_eq_false_iff_not] at h
    simp [orNullStr, h]

/-- When the exact-match query comes back empty and both fields are truthy,
no non-deleted row carries the pair. -/
theorem exactMatch_none_no_pair {s : Store} {e p : Option String}
    (hte : truthy e = true) (htp : truthy p = true)
    (h : findExactContactMatch s e p = none) :
    pairPresent s e p = false := by
  unfold findExactContactMatch at h
  rw [if_neg (by simp [hte])] at h
  unfold findExactMatch at h
  rw [if_neg (by simp [hte])] at h
  by_contra hp
  rw [Bool.not_eq_false] at hp
  unfold pairPresent at hp
  rw [List.any_eq_true] at hp
  obtain ⟨c, hm, hc⟩ := hp
  simp only [Bool.and_eq_true, beq_iff_eq, Option.isNone_iff_eq_none] at hc
  have hnone := List.find?_eq_none.1 h c hm
  simp only [Bool.and_eq_true, beq_iff_eq, Option.isNone_iff_eq_none, not_and] at hnone
  rw [orNullStr_truthy hte, orNullStr_truthy htp] at hnone
  exact hnone ⟨hc.1.2, hc.2⟩ hc.1.1

/-- When both fields matched, the clusters are distinct and the exact match
missed, `identifyContact` runs `mergeContactGroups` on the gathered
primaries. -/
theorem identify_merge_path {s : Store} {e p ne np : Option String}
    (hve : validateEmail e = .ok ne) (hvp : validatePhoneNumber p = .ok np)
    (hex : findExactContactMatch s ne np = none)
    (hE : (findFieldMatches s ne np).hasEmailMatch = true)
    (hP : (findFieldMatches s ne np).hasPhoneMatch = true)
    (hsame : phoneInSameGroupOf s ne np = false) :
    identifyContact s e p =
      mergeContactGroups s ne np (emailPrimariesOf s ne np) (phonePrimariesOf s ne np) := by
  have hne : truthy ne = true := hasEmailMatch_truthy hE
  simp only [identifyContact, hve, hvp, hex]
  rw [if_neg (by simp [hne])]
  simp only [handleLinkingScenario, hE, hP]
  rw [if_neg (by simp), if_neg (by simp), if_pos (by simp)]
  unfold phoneInSameGroupOf phonePrimariesOf emailPrimariesOf at hsame
  simp only [handleComplexLinking]
  rw [hsame, if_neg Bool.false_ne_true]
  rfl

/-- When both sides resolve into the same cluster, `identifyContact` only
builds the consolidated view: the store is returned unchanged. -/
theorem identify_sameGroup_path {s : Store} {e p ne np : Option String}
    (hve : validateEmail e = .ok ne) (hvp : validatePhoneNumber p = .ok np)
    (hex : findExactContactMatch s ne np = none)
    (hE : (findFieldMatches s ne np).hasEmailMatch = true)
    (hP : (findFieldMatches s ne np).hasPhoneMatch = true)
    (hsame : phoneInSameGroupOf s ne np = true) :
    (identifyContact s e p).2 = s := by
  have hne : truthy ne = true := hasEmailMatch_truthy hE
  simp only [identifyContact, hve, hvp, hex]
  rw [if_neg (by simp [hne])]
  simp only [handleLinkingScenario, hE, hP]
  rw [if_neg (by simp), if_neg (by simp), if_pos (by simp)]
  unfold phoneInSameGroupOf phonePrimariesOf emailPrimariesOf at hsame
  simp only [handleComplexLinking]
  rw [hsame, if_pos rfl]
  cases ho : oldestFirst ((findAllRelatedContacts s
      (findFieldMatches s ne np).emailMatches).filter
      fun c => c.linkPrecedence.isPrimary) <;> rfl

/-- Replaying the logged demotion statements is the conversion loop. -/
theorem applyWrites_toSecondary (s : Store) (L : List Contact) (pid : Nat) :
    applyWrites s (L.map fun q => WriteOp.toSecondary q.id pid)
      = L.foldl (fun st q => convertToSecondary st q.id pid) s := by
  unfold applyWrites
  rw [List.foldl_map]
  rfl

/- ---------------------------------------------------------------------
Claim theorems.
--------------------------------------------------------------------- -/

/-- C5 counterexample: with only an email supplied, `findExactMatch` reports
an exact match on a row whose phone is null — refuting that a field matches
only when both sides are non-null, and that single-field inputs never
produce an exact match. -/
theorem findExactMatch_single_field_cex :
    findExactMatch storeNullPhone (some "a@x.com") none = some nc1 := by decide

/-- C5 (amended): the exact-match lookup fires precisely when some
non-deleted row equals the query on both columns under null-equality
semantics — a null query side matches exactly the rows whose column is null,
so a single-field query can report an exact match. -/
theorem findExactMatch_fires_under_null_equality (s : Store) (e p : Option String) :
    (findExactMatch s e p).isSome = true ↔
      ((truthy e || truthy p) = true ∧
       ∃ c, c ∈ s.contacts ∧ c.deletedAt = none ∧
            c.email = orNullStr e ∧ c.phoneNumber = orNullStr p) :=
  findExactMatch_isSome_iff s e p

/-- C8 counterexample: on a store holding the two-hop chain 3 → 2 → 1,
`findPrimaryContact` silently recurses through both hops and returns the
root primary, and a missing row yields null — it never fails with a
`DataIntegrityError`-style error after one hop. -/
theorem primary_lookup_two_hops_cex :
    findPrimaryContact storeChain 4 3 = some hc1 ∧
    hc1.linkPrecedence = LinkPrecedence.primary ∧
    findPrimaryContact storeChain 4 99 = none := by decide

/-- C8 (amended): primary resolution recurses through `linkedId` for any
number of hops; whenever it returns a contact, that contact is an existing,
non-deleted primary row, and broken chains yield null instead of an error. -/
theorem primary_lookup_returns_active_primary (s : Store) (fuel cid : Nat)
    (c : Contact) (h : findPrimaryContact s fuel cid = some c) :
    c.linkPrecedence = LinkPrecedence.primary ∧ c ∈ s.contacts ∧
    c.deletedAt = none :=
  findPrimaryContact_good h

theorem primary_lookup_returns_active_primary_wit :
    hc1.linkPrecedence = LinkPrecedence.primary ∧ hc1 ∈ storeChain.contacts ∧
    hc1.deletedAt = none :=
  primary_lookup_returns_active_primary storeChain 4 3 hc1 (by decide)

/-- C9: the consolidated view of every successful `Resolve` lists the
secondaries in ascending `createdAt` order, and its email and phone lists
are the distinct truthy values of the cluster in order of first appearance,
primary first, nulls skipped, duplicates removed. -/
theorem resolve_view_wellformed (s : Store) (e p : Option String)
    (view : ConsolidatedContact) (s' : Store)
    (h : identifyContact s e p = (.ok view, s')) : viewWellFormed view := by
  have h1 : (identifyContact s e p).1 = .ok view := by rw [h]
  simp only [identifyContact] at h1
  cases hve : validateEmail e with
  | error er =>
    rw [hve] at h1
    exact Except.noConfusion (show Except.error er = Except.ok view from h1)
  | ok ne =>
    rw [hve] at h1
    cases hvp : validatePhoneNumber p with
    | error er =>
      rw [hvp] at h1
      exact Except.noConfusion (show Except.error er = Except.ok view from h1)
    | ok np =>
      rw [hvp] at h1
      replace h1 : (if (!truthy ne && !truthy np) = true
          then ((Except.error IdErr.missingInput : Except IdErr ConsolidatedContact), s)
          else match findExactContactMatch s ne np with
               | some c => (getConsolidatedContact s c, s)
               | none => handleLinkingScenario s ne np
                   (findFieldMatches s ne np)).1 = Except.ok view := h1
      by_cases hm : (!truthy ne && !truthy np) = true
      · rw [if_pos hm] at h1
        exact Except.noConfusion
          (show Except.error IdErr.missingInput = Except.ok view from h1)
      · rw [if_neg hm] at h1
        cases hex : findExactContactMatch s ne np with
        | some c =>
          rw [hex] at h1
          exact getConsolidatedContact_ok
            (show getConsolidatedContact s c = .ok view from h1)
        | none =>
          rw [hex] at h1
          exact handleLinkingScenario_ok
            (show (handleLinkingScenario s ne np (findFieldMatches s ne np)).1
              = .ok view from h1)

theorem resolve_view_wellformed_wit :
    viewWellFormed ⟨⟨1, some "a@x.com", none, none, .primary, 10, 10, none⟩, [],
      ["a@x.com"], []⟩ :=
  resolve_view_wellformed storeEmpty (some "a@x.com") none
    ⟨⟨1, some "a@x.com", none, none, .primary, 10, 10, none⟩, [], ["a@x.com"], []⟩
    ⟨[⟨1, some "a@x.com", none, none, .primary, 10, 10, none⟩], 2, 10,
      [WriteOp.createRow (some "a@x.com") none none .primary]⟩
    (by rfl)

/-- C10: an empty or whitespace-only email and an empty (or whitespace-only)
phone normalize to null rather than raising a format error, and when both
inputs normalize to null, `identifyContact` fails with the missing-input
error and hands back the store untouched — for every store, so no store
access is involved. -/
theorem blank_inputs_fail_fast :
    (∀ es : String, strTrim es = "" → validateEmail (some es) = .ok none) ∧
    (∀ ps : String, strTrim ps = "" → validatePhoneNumber (some ps) = .ok none) ∧
    (∀ (e p : Option String) (s : Store),
      validateEmail e = .ok none → validatePhoneNumber p = .ok none →
      identifyContact s e p = (.error .missingInput, s)) := by
  refine ⟨?_, ?_, ?_⟩
  · intro es h
    simp only [validateEmail]
    by_cases he : es = ""
    · rw [if_pos he]
    · rw [if_neg he, if_pos h]
  · intro ps h
    simp only [validatePhoneNumber]
    by_cases hp : ps = ""
    · rw [if_pos hp]
    · rw [if_neg hp, if_pos h]
  · intro e p s hve hvp
    simp only [identifyContact, hve, hvp]
    rfl

theorem blank_inputs_fail_fast_wit :
    validateEmail (some "  ") = .ok none ∧
    validatePhoneNumber (some "") = .ok none ∧
    identifyContact storeEmpty (some "  ") (some "") =
      (.error .missingInput, storeEmpty) := by
  refine ⟨blank_inputs_fail_fast.1 "  " (by decide),
          blank_inputs_fail_fast.2.1 "" (by decide),
          blank_inputs_fail_fast.2.2 (some "  ") (some "") storeEmpty
            (blank_inputs_fail_fast.1 "  " (by decide))
            (blank_inputs_fail_fast.2.1 "" (by decide))⟩

/-- C1 counterexample: resolving ("a@x.com", "222") on `storeMerge` merges
cluster 1 into cluster 2's; contact 2 (the losing primary) is demoted, yet
contact 3 — its prior secondary — still has `linkedId = 2`, so a contact
keeps pointing at the demoted primary after the merge. -/
theorem merge_leaves_dangling_secondary_cex :
    ((identifyContact storeMerge (some "a@x.com") (some "222")).2.contacts.any
      fun c => c.id == 2 && c.linkPrecedence.isSecondary) = true ∧
    ((identifyContact storeMerge (some "a@x.com") (some "222")).2.contacts.any
      fun c => c.id == 3 && c.linkedId == some 2) = true := by decide

/-- C1 (amended): a merge re-points only the losing primaries themselves:
each gathered primary other than the winner is demoted with `linkedId` set
to the winner's id, while every other row — including any prior secondary of
a losing primary — is carried into the post-merge store unchanged, so such
secondaries still reference the demoted primary. -/
theorem merge_repoints_only_losing_primaries (s : Store) (e p : Option String)
    (eP pP : List Contact) (w : Contact)
    (hw : oldestFirst (eP ++ pP) = some w) :
    (∀ c ∈ s.contacts,
      (((eP ++ pP).filter fun x => !(x.id == w.id)).map Contact.id).contains c.id = true →
      demote w.id s.now c ∈ (mergeContactGroups s e p eP pP).2.contacts) ∧
    (∀ c ∈ s.contacts,
      (((eP ++ pP).filter fun x => !(x.id == w.id)).map Contact.id).contains c.id = false →
      c ∈ (mergeContactGroups s e p eP pP).2.contacts) := by
  have key : ∀ c' : Contact,
      c' ∈ s.contacts.map
        (demoteIf (((eP ++ pP).filter fun x => !(x.id == w.id)).map Contact.id) w.id s.now) →
      c' ∈ (mergeContactGroups s e p eP pP).2.contacts := by
    intro c' hc'
    rw [mergeContactGroups_snd s e p eP pP w hw]
    by_cases ht : (truthy e || truthy p) = true
    · rw [if_pos ht]
      exact List.mem_append_left _ hc'
    · rw [if_neg ht]
      exact hc'
  constructor
  · intro c hc hcont
    refine key _ (List.mem_map.2 ⟨c, hc, ?_⟩)
    unfold demoteIf
    rw [if_pos hcont]
  · intro c hc hcont
    refine key _ (List.mem_map.2 ⟨c, hc, ?_⟩)
    unfold demoteIf
    rw [if_neg (by rw [hcont]; exact Bool.false_ne_true)]

theorem merge_repoints_only_losing_primaries_wit :
    demote 1 10 mc2 ∈
      (mergeContactGroups storeMerge (some "a@x.com") (some "222") [mc1] [mc2]).2.contacts ∧
    mc3 ∈
      (mergeContactGroups storeMerge (some "a@x.com") (some "222") [mc1] [mc2]).2.contacts := by
  have h := merge_repoints_only_losing_primaries storeMerge (some "a@x.com") (some "222")
    [mc1] [mc2] mc1 (by decide)
  exact ⟨h.1 mc2 (by decide) (by decide), h.2 mc3 (by decide) (by decide)⟩

/-- C2 counterexample: `storeMerge` satisfies the §3 link invariant, yet
after one `Resolve` call the invariant is broken — contact 3's `linkedId`
now references a secondary. -/
theorem resolve_breaks_link_invariant_cex :
    storeInv storeMerge = true ∧
    storeInv (identifyContact storeMerge (some "a@x.com") (some "222")).2 = false := by
  decide

/-- C2 (amended): every `Resolve` call preserves the weakened invariant in
which each secondary has a non-null `linkedId` referencing an existing,
non-deleted contact — but not necessarily a primary: merges whose loser had
secondaries create multi-level chains, so only this weakened form is an
invariant of the code. -/
theorem resolve_preserves_weakened_link_invariant (e p : Option String)
    (s : Store) (hs : storeInvActive s = true) :
    storeInvActive (identifyContact s e p).2 = true := by
  simp only [identifyContact]
  cases hve : validateEmail e with
  | error er => exact hs
  | ok ne =>
    cases hvp : validatePhoneNumber p with
    | error er => exact hs
    | ok np =>
      show storeInvActive ((if (!truthy ne && !truthy np) = true
          then ((Except.error IdErr.missingInput : Except IdErr ConsolidatedContact), s)
          else match findExactContactMatch s ne np with
               | some c => (getConsolidatedContact s c, s)
               | none => handleLinkingScenario s ne np
                   (findFieldMatches s ne np)).2) = true
      by_cases hm : (!truthy ne && !truthy np) = true
      · rw [if_pos hm]
        exact hs
      · rw [if_neg hm]
        cases hex : findExactContactMatch s ne np with
        | some c => exact hs
        | none => exact storeInvActive_scenario s ne np hs

theorem resolve_preserves_weakened_link_invariant_wit :
    storeInvActive storeMerge = true ∧
    storeInvActive (identifyContact storeMerge (some "a@x.com") (some "222")).2 = true :=
  ⟨by decide,
   resolve_preserves_weakened_link_invariant (some "a@x.com") (some "222")
     storeMerge (by decide)⟩

/-- C4 counterexample: in `storeTie` the two primaries share `createdAt` and
the phone-matched primary has the lower id (1), but the code keeps the
email-matched primary (id 2) and demotes contact 1 — the tie is not broken
by lowest id as the claim states. -/
theorem merge_tie_not_lowest_id_cex :
    tc1.createdAt = tc2.createdAt ∧ tc1.id < tc2.id ∧
    ((identifyContact storeTie (some "a@x.com") (some "111")).2.contacts.any
      fun c => c.id == 1 && c.linkPrecedence.isSecondary && c.linkedId == some 2) = true := by
  decide

/-- C4 (amended): the merge winner is the first contact with minimal
`createdAt` in the concatenated email-primaries-then-phone-primaries array
(JS stable sort), so a `createdAt` tie is broken by array position, not by
lowest id; exactly the other gathered primaries are demoted under it. -/
theorem merge_winner_first_minimal_createdAt (s : Store) (e p : Option String)
    (eP pP : List Contact) (w : Contact)
    (hw : oldestFirst (eP ++ pP) = some w) :
    w ∈ eP ++ pP ∧
    (∀ x ∈ eP ++ pP, w.createdAt ≤ x.createdAt) ∧
    (∃ l1 l2, eP ++ pP = l1 ++ w :: l2 ∧ ∀ x ∈ l1, w.createdAt < x.createdAt) ∧
    (mergeContactGroups s e p eP pP).2.writeLog =
      s.writeLog ++
      ((eP ++ pP).filter fun x => !(x.id == w.id)).map
        (fun x => WriteOp.toSecondary x.id w.id) ++
      (if truthy e || truthy p then
        [WriteOp.createRow e p (some w.id) LinkPrecedence.secondary] else []) := by
  refine ⟨oldestFirst_mem hw, oldestFirst_min hw, oldestFirst_split hw, ?_⟩
  rw [mergeContactGroups_snd s e p eP pP w hw]
  by_cases ht : (truthy e || truthy p) = true
  · rw [if_pos ht]
    show (s.writeLog ++
        ((eP ++ pP).filter fun x => !(x.id == w.id)).map
          (fun x => WriteOp.toSecondary x.id w.id)) ++
        [WriteOp.createRow e p (some w.id) LinkPrecedence.secondary] = _
    rw [if_pos ht]
  · rw [if_neg ht]
    show s.writeLog ++
        ((eP ++ pP).filter fun x => !(x.id == w.id)).map
          (fun x => WriteOp.toSecondary x.id w.id) = _
    rw [if_neg ht, List.append_nil]

theorem merge_winner_first_minimal_createdAt_wit :
    tc2 ∈ [tc2] ++ [tc1] ∧ (∀ x ∈ [tc2] ++ [tc1], tc2.createdAt ≤ x.createdAt) := by
  have h := merge_winner_first_minimal_createdAt storeTie (some "a@x.com") (some "111")
    [tc2] [tc1] tc2 (by decide)
  exact ⟨h.1, h.2.1⟩

/-- C3 counterexample: the merge on `storeMerge` issues two separately
committed statements (a demotion update and an insert).  Replaying only the
first — the state the store is left in if the call fails before the insert —
yields contacts differing from both the initial and the final store: the
primary is demoted but no new secondary exists, so a partial merge is
observable and the store is not left unchanged. -/
theorem merge_partial_commit_observable_cex :
    (identifyContact storeMerge (some "a@x.com") (some "222")).2.writeLog.length = 2 ∧
    (applyWrites storeMerge
      ((identifyContact storeMerge (some "a@x.com") (some "222")).2.writeLog.take 1)).contacts
      ≠ storeMerge.contacts ∧
    (applyWrites storeMerge
      ((identifyContact storeMerge (some "a@x.com") (some "222")).2.writeLog.take 1)).contacts
      ≠ (identifyContact storeMerge (some "a@x.com") (some "222")).2.contacts := by
  decide

/-- C3 (amended): a `Resolve` call's mutations are individually committed
statements with no enclosing transaction: in a merge, replaying only the
logged demotion statements reproduces a store in which every losing primary
is demoted but the new secondary row does not exist yet (same row count as
before), while the completed call's store has one row more — so a failure
between the demotions and the insert leaves a partially merged store
visible. -/
theorem merge_writes_commit_individually (s : Store) (e p : Option String)
    (eP pP : List Contact) (w : Contact)
    (hw : oldestFirst (eP ++ pP) = some w)
    (hlog : s.writeLog = [])
    (ht : (truthy e || truthy p) = true) :
    ((mergeContactGroups s e p eP pP).2.writeLog.take
        ((eP ++ pP).filter fun x => !(x.id == w.id)).length =
      ((eP ++ pP).filter fun x => !(x.id == w.id)).map
        (fun x => WriteOp.toSecondary x.id w.id)) ∧
    (applyWrites s ((mergeContactGroups s e p eP pP).2.writeLog.take
        ((eP ++ pP).filter fun x => !(x.id == w.id)).length)).contacts =
      s.contacts.map
        (demoteIf ((((eP ++ pP).filter fun x => !(x.id == w.id))).map Contact.id)
          w.id s.now) ∧
    (applyWrites s ((mergeContactGroups s e p eP pP).2.writeLog.take
        ((eP ++ pP).filter fun x => !(x.id == w.id)).length)).contacts.length =
      s.contacts.length ∧
    (mergeContactGroups s e p eP pP).2.contacts.length = s.contacts.length + 1 := by
  have hsnd := mergeContactGroups_snd s e p eP pP w hw
  have hlog2 : (mergeContactGroups s e p eP pP).2.writeLog =
      ((eP ++ pP).filter fun x => !(x.id == w.id)).map
        (fun x => WriteOp.toSecondary x.id w.id) ++
      [WriteOp.createRow e p (some w.id) LinkPrecedence.secondary] := by
    rw [hsnd, if_pos ht]
    show (s.writeLog ++ _) ++ _ = _
    rw [hlog, List.nil_append]
  have htake : (mergeContactGroups s e p eP pP).2.writeLog.take
      ((eP ++ pP).filter fun x => !(x.id == w.id)).length =
      ((eP ++ pP).filter fun x => !(x.id == w.id)).map
        (fun x => WriteOp.toSecondary x.id w.id) := by
    rw [hlog2, ← List.length_map ((eP ++ pP).filter fun x => !(x.id == w.id))
      (fun x => WriteOp.toSecondary x.id w.id), List.take_left]
  have hreplay : (applyWrites s ((mergeContactGroups s e p eP pP).2.writeLog.take
      ((eP ++ pP).filter fun x => !(x.id == w.id)).length)).contacts =
      s.contacts.map
        (demoteIf ((((eP ++ pP).filter fun x => !(x.id == w.id))).map Contact.id)
          w.id s.now) := by
    rw [htake, applyWrites_toSecondary, convert_foldl]
  refine ⟨htake, hreplay, ?_, ?_⟩
  · rw [hreplay, List.length_map]
  · rw [hsnd, if_pos ht]
    show (s.contacts.map _ ++ [_]).length = _
    rw [List.length_append, List.length_map, List.length_singleton]

theorem merge_writes_commit_individually_wit :
    ((mergeContactGroups storeMerge (some "a@x.com") (some "222") [mc1] [mc2]).2.writeLog.take
        (([mc1] ++ [mc2]).filter fun x => !(x.id == mc1.id)).length =
      (([mc1] ++ [mc2]).filter fun x => !(x.id == mc1.id)).map
        (fun x => WriteOp.toSecondary x.id mc1.id)) ∧
    (applyWrites storeMerge
      ((mergeContactGroups storeMerge (some "a@x.com") (some "222") [mc1] [mc2]).2.writeLog.take
        (([mc1] ++ [mc2]).filter fun x => !(x.id == mc1.id)).length)).contacts =
      storeMerge.contacts.map
        (demoteIf (((([mc1] ++ [mc2]).filter fun x => !(x.id == mc1.id))).map Contact.id)
          mc1.id storeMerge.now) ∧
    (applyWrites storeMerge
      ((mergeContactGroups storeMerge (some "a@x.com") (some "222") [mc1] [mc2]).2.writeLog.take
        (([mc1] ++ [mc2]).filter fun x => !(x.id == mc1.id)).length)).contacts.length =
      storeMerge.contacts.length ∧
    (mergeContactGroups storeMerge (some "a@x.com") (some "222") [mc1] [mc2]).2.contacts.length =
      storeMerge.contacts.length + 1 :=
  merge_writes_commit_individually storeMerge (some "a@x.com") (some "222")
    [mc1] [mc2] mc1 (by decide) rfl rfl

/-- C6: whenever `identifyContact` performs a merge of two distinct clusters,
the observed (email, phone) pair is not present verbatim on any non-deleted
row (the exact-match short-circuit would otherwise have fired), and exactly
one new secondary row carrying the pair, linked to the winner, is created —
so during a merge a new secondary is created if and only if the pair is
absent from the merged cluster. -/
theorem merge_creates_secondary_iff_pair_absent (s : Store)
    (e p ne np : Option String) (w : Contact)
    (hve : validateEmail e = .ok ne) (hvp : validatePhoneNumber p = .ok np)
    (hex : findExactContactMatch s ne np = none)
    (hE : (findFieldMatches s ne np).hasEmailMatch = true)
    (hP : (findFieldMatches s ne np).hasPhoneMatch = true)
    (hsame : phoneInSameGroupOf s ne np = false)
    (hw : oldestFirst (emailPrimariesOf s ne np ++ phonePrimariesOf s ne np) = some w) :
    pairPresent s ne np = false ∧
    (identifyContact s e p).2.contacts =
      s.contacts.map
        (demoteIf ((((emailPrimariesOf s ne np ++ phonePrimariesOf s ne np).filter
          fun x => !(x.id == w.id))).map Contact.id) w.id s.now) ++
      [⟨s.nextId, ne, np, some w.id, .secondary, s.now, s.now, none⟩] := by
  have hne : truthy ne = true := hasEmailMatch_truthy hE
  have hnp : truthy np = true := hasPhoneMatch_truthy hP
  refine ⟨exactMatch_none_no_pair hne hnp hex, ?_⟩
  rw [identify_merge_path hve hvp hex hE hP hsame,
    mergeContactGroups_snd s ne np _ _ w hw,
    if_pos (show (truthy ne || truthy np) = true by rw [hne]; rfl)]
  rfl

theorem merge_creates_secondary_iff_pair_absent_wit :
    pairPresent storeTwoPrimaries (some "a@x.com") (some "111") = false ∧
    (identifyContact storeTwoPrimaries (some "a@x.com") (some "111")).2.contacts.length = 3 := by
  have h := merge_creates_secondary_iff_pair_absent storeTwoPrimaries
    (some "a@x.com") (some "111") (some "a@x.com") (some "111") wc1
    rfl rfl rfl rfl rfl rfl rfl
  exact ⟨h.1, by rw [h.2]; rfl⟩

/-- C7 counterexample: in `storeSplitPair` the pair ("a@x.com", "222") is
split across the primary and its secondary and is not stored as a row, so by
the claim a new secondary should be created; resolving it changes nothing —
the store, row count included, is returned as-is. -/
theorem same_cluster_pair_not_created_cex :
    pairPresent storeSplitPair (some "a@x.com") (some "222") = false ∧
    (identifyContact storeSplitPair (some "a@x.com") (some "222")).2 = storeSplitPair := by
  decide

/-- C7 (amended): when both supplied fields match contacts resolving to the
same primary, `Resolve` creates no new row at all — whether or not the
literal (email, phone) combination is already stored in the cluster; in
particular re-resolving a pair already present creates zero rows. -/
theorem same_cluster_resolve_never_creates (s : Store) (e p ne np : Option String)
    (hve : validateEmail e = .ok ne) (hvp : validatePhoneNumber p = .ok np)
    (hex : findExactContactMatch s ne np = none)
    (hE : (findFieldMatches s ne np).hasEmailMatch = true)
    (hP : (findFieldMatches s ne np).hasPhoneMatch = true)
    (hsame : phoneInSameGroupOf s ne np = true) :
    (identifyContact s e p).2 = s :=
  identify_sameGroup_path hve hvp hex hE hP hsame

theorem same_cluster_resolve_never_creates_wit :
    (identifyContact storeSplitPair (some "a@x.com") (some "222")).2 = storeSplitPair :=
  same_cluster_resolve_never_creates storeSplitPair (some "a@x.com") (some "222")
    (some "a@x.com") (some "222") rfl rfl rfl rfl rfl rfl
